import Mathlib

/-!
# Achievo contract — shallow embedding and verification

Shallow embedding of `src/achievo/src/contract.ts` (NEAR contract
`AchievoContract`).  Platform inputs (caller identity, timestamps, attached
deposit) are explicit parameters; a thrown `Error` becomes `Except.error`;
the NEAR runtime's rollback-on-throw is modelled by `applyOp`, which keeps
the pre-state on error.  `LookupMap` collections become functions
`String → Option _`; the JS template ids `cert_${n}` / `reward_${n}` are
rendered by `natStr` (decimal numerals, proved injective below).
-/

namespace Achievo

/-- Little-endian base-10 digits of `n`, computed with explicit fuel so that
the definition reduces by structural recursion. -/
def toDigitsRev : Nat → Nat → List Nat
  | 0, _ => []
  | fuel + 1, n => if n = 0 then [] else n % 10 :: toDigitsRev fuel (n / 10)

/-- Decimal rendering of a natural number, as produced by a JS template
literal `${n}`. -/
def natStr (n : Nat) : String :=
  if n = 0 then "0" else ⟨((toDigitsRev n n).map Nat.digitChar).reverse⟩

/-- Numeric value of a decimal digit character; left inverse to
`Nat.digitChar` on digits below 10. -/
def charVal (c : Char) : Nat :=
  if c = '0' then 0 else if c = '1' then 1 else if c = '2' then 2
  else if c = '3' then 3 else if c = '4' then 4 else if c = '5' then 5
  else if c = '6' then 6 else if c = '7' then 7 else if c = '8' then 8
  else if c = '9' then 9 else 0

/-- Decimal parsing of a string's characters, inverse to `natStr`. -/
def strNat (s : String) : Nat :=
  Nat.ofDigits 10 ((s.data.map charVal).reverse)

theorem charVal_digitChar {d : Nat} (hd : d < 10) :
    charVal (Nat.digitChar d) = d := by
  interval_cases d <;> rfl

theorem toDigitsRev_lt_ten {fuel : Nat} :
    ∀ {n : Nat}, ∀ d ∈ toDigitsRev fuel n, d < 10 := by
  induction fuel with
  | zero => intro n d hd; simp [toDigitsRev] at hd
  | succ fuel ih =>
    intro n d hd
    by_cases h : n = 0
    · simp [toDigitsRev, h] at hd
    · rw [toDigitsRev, if_neg h] at hd
      rcases List.mem_cons.mp hd with heq | htail
      · subst heq; exact Nat.mod_lt _ (by norm_num)
      · exact ih _ htail

theorem ofDigits_toDigitsRev :
    ∀ fuel n, n ≤ fuel → Nat.ofDigits 10 (toDigitsRev fuel n) = n := by
  intro fuel
  induction fuel with
  | zero =>
    intro n hn
    interval_cases n
    rfl
  | succ fuel ih =>
    intro n hn
    by_cases h : n = 0
    · subst h; rfl
    · rw [toDigitsRev, if_neg h, Nat.ofDigits_cons,
        ih (n / 10) (by omega)]
      omega

theorem strNat_natStr (n : Nat) : strNat (natStr n) = n := by
  unfold natStr strNat
  by_cases h : n = 0
  · subst h; rfl
  · rw [if_neg h]
    show Nat.ofDigits 10 ((((toDigitsRev n n).map Nat.digitChar).reverse.map charVal).reverse) = n
    rw [← List.map_reverse, List.reverse_reverse, List.map_map]
    have hmap : (toDigitsRev n n).map (charVal ∘ Nat.digitChar) = toDigitsRev n n := by
      conv_rhs => rw [← List.map_id (toDigitsRev n n)]
      apply List.map_congr_left
      intro d hdmem
      exact charVal_digitChar (toDigitsRev_lt_ten d hdmem)
    rw [hmap, ofDigits_toDigitsRev n n (le_refl n)]

theorem natStr_injective : Function.Injective natStr :=
  Function.LeftInverse.injective strNat_natStr

/-! ## Data model (`interface` declarations of contract.ts) -/

structure Individual where
  id : String
  name : String
  dob : String
  email : String
  registered_at : String
deriving DecidableEq, Repr

structure Organization where
  id : String
  name : String
  contact_info : String
  verified : Bool
  registered_at : String
deriving DecidableEq, Repr

structure CertificateMetadata where
  learner_id : String
  course_id : String
  course_name : String
  completion_date : String
  issuer_org_id : String
  skills : List String
  grade : Option String
deriving DecidableEq, Repr

structure Certificate where
  id : String
  metadata : CertificateMetadata
  status : String
  issued_at : String
  updated_at : String
deriving DecidableEq, Repr

structure Reward where
  id : String
  learner_id : String
  milestone : String
  amount : String
  granted_at : String
deriving DecidableEq, Repr

structure UpdateLog where
  timestamp : String
  action : String
  reason : String
  by_account : String
deriving DecidableEq, Repr

/-- Error taxonomy of the spec (§7); each constructor carries the message
string thrown by the corresponding `throw new Error(...)` in contract.ts. -/
inductive ContractError where
  | alreadyRegistered (msg : String)
  | notFound (msg : String)
  | unauthorized (msg : String)
  | insufficientFunds (msg : String)
  | revoked (msg : String)
deriving DecidableEq, Repr

/-- The transfer action `process_payment` delegates to the platform
(`promiseBatchCreate` / `promiseBatchActionTransfer`). -/
structure Transfer where
  recipient : String
  amount : Int
deriving DecidableEq, Repr

/-- Persistent contract state: the five `LookupMap` collections and the two
id counters of `AchievoContract`. -/
structure AchievoState where
  individuals : String → Option Individual
  organizations : String → Option Organization
  certificates : String → Option Certificate
  rewards : String → Option Reward
  certificate_history : String → Option (List UpdateLog)
  certificate_counter : Nat
  reward_counter : Nat

/-- `LookupMap.set`. -/
def mapSet {α : Type} (m : String → Option α) (k : String) (v : α) :
    String → Option α :=
  fun k2 => if k2 = k then some v else m k2

/-- The state built by the contract constructor: empty maps, counters at 0. -/
def initState : AchievoState where
  individuals := fun _ => none
  organizations := fun _ => none
  certificates := fun _ => none
  rewards := fun _ => none
  certificate_history := fun _ => none
  certificate_counter := 0
  reward_counter := 0

/-- `cert_${certificate_counter}` id string. -/
def certId (n : Nat) : String := "cert_" ++ natStr n

/-- `reward_${reward_counter}` id string. -/
def rewardId (n : Nat) : String := "reward_" ++ natStr n

theorem certId_injective : Function.Injective certId := by
  intro a b h
  apply natStr_injective
  have hdata : (certId a).data = (certId b).data := by rw [h]
  simp only [certId, String.data_append] at hdata
  have := List.append_cancel_left hdata
  exact String.ext this

theorem rewardId_injective : Function.Injective rewardId := by
  intro a b h
  apply natStr_injective
  have hdata : (rewardId a).data = (rewardId b).data := by rw [h]
  simp only [rewardId, String.data_append] at hdata
  have := List.append_cancel_left hdata
  exact String.ext this

/-! ## Operations (methods of `AchievoContract`)

Each `@call` method becomes a pure function on `AchievoState`; `caller` is
`near.predecessorAccountId()`, `now` is `new Date().toISOString()`, and
`attached_deposit` is `near.attachedDeposit()`.  A `throw new Error(msg)`
becomes `Except.error` with the matching taxonomy constructor and `msg`. -/

def register_individual (st : AchievoState)
    (caller now name dob email : String) :
    Except ContractError AchievoState :=
  match st.individuals caller with
  | some _ => .error (.alreadyRegistered "Individual already registered")
  | none =>
    let individual : Individual :=
      { id := caller, name := name, dob := dob, email := email,
        registered_at := now }
    .ok { st with individuals := mapSet st.individuals caller individual }

def register_organization (st : AchievoState)
    (caller now name contact_info : String) :
    Except ContractError AchievoState :=
  match st.organizations caller with
  | some _ => .error (.alreadyRegistered "Organization already registered")
  | none =>
    let organization : Organization :=
      { id := caller, name := name, contact_info := contact_info,
        verified := false, registered_at := now }
    .ok { st with organizations := mapSet st.organizations caller organization }

/-- `verify_organization` never reads the caller identity: the source has no
`predecessorAccountId()` call (the missing role check is a documented gap). -/
def verify_organization (st : AchievoState) (organization_id : String) :
    Except ContractError AchievoState :=
  match st.organizations organization_id with
  | none => .error (.notFound "Organization not found")
  | some organization =>
    let organization2 : Organization := { organization with verified := true }
    .ok { st with organizations :=
            mapSet st.organizations organization_id organization2 }

def issue_certificate (st : AchievoState)
    (caller now learner_id course_id : String)
    (metadata : CertificateMetadata) :
    Except ContractError (String × AchievoState) :=
  match st.organizations caller with
  | none => .error (.unauthorized "Only verified organizations can issue certificates")
  | some organization =>
    if organization.verified = false then
      .error (.unauthorized "Only verified organizations can issue certificates")
    else
      match st.individuals learner_id with
      | none => .error (.notFound "Learner not found")
      | some _ =>
        let counter := st.certificate_counter + 1
        let certificate_id := certId counter
        let metadata2 : CertificateMetadata :=
          { metadata with
            learner_id := learner_id, course_id := course_id,
            issuer_org_id := caller }
        let certificate : Certificate :=
          { id := certificate_id, metadata := metadata2,
            status := "pending", issued_at := now, updated_at := now }
        let initial_log : UpdateLog :=
          { timestamp := now, action := "issued",
            reason := "Certificate issued", by_account := caller }
        .ok (certificate_id,
          { st with
            certificates := mapSet st.certificates certificate_id certificate,
            certificate_history :=
              mapSet st.certificate_history certificate_id [initial_log],
            certificate_counter := counter })

def update_certificate_status (st : AchievoState)
    (caller now certificate_id new_status : String) :
    Except ContractError AchievoState :=
  match st.certificates certificate_id with
  | none => .error (.notFound "Certificate not found")
  | some certificate =>
    if certificate.metadata.issuer_org_id ≠ caller then
      .error (.unauthorized "Unauthorized to update this certificate")
    else
      let certificate2 : Certificate :=
        { certificate with status := new_status, updated_at := now }
      let history := (st.certificate_history certificate_id).getD []
      let entry : UpdateLog :=
        { timestamp := now, action := "status_updated",
          reason := "Status changed to " ++ new_status, by_account := caller }
      .ok { st with
            certificates := mapSet st.certificates certificate_id certificate2,
            certificate_history :=
              mapSet st.certificate_history certificate_id (history ++ [entry]) }

def revoke_certificate (st : AchievoState)
    (caller now certificate_id reason : String) :
    Except ContractError AchievoState :=
  match st.certificates certificate_id with
  | none => .error (.notFound "Certificate not found")
  | some certificate =>
    if certificate.metadata.issuer_org_id ≠ caller then
      .error (.unauthorized "Unauthorized to revoke this certificate")
    else
      let certificate2 : Certificate :=
        { certificate with status := "revoked", updated_at := now }
      let history := (st.certificate_history certificate_id).getD []
      let entry : UpdateLog :=
        { timestamp := now, action := "revoked", reason := reason,
          by_account := caller }
      .ok { st with
            certificates := mapSet st.certificates certificate_id certificate2,
            certificate_history :=
              mapSet st.certificate_history certificate_id (history ++ [entry]) }

/-- `grant_reward` never reads the caller identity (no
`predecessorAccountId()` call in the source). -/
def grant_reward (st : AchievoState) (now learner_id milestone : String) :
    Except ContractError (String × AchievoState) :=
  match st.individuals learner_id with
  | none => .error (.notFound "Learner not found")
  | some _ =>
    let counter := st.reward_counter + 1
    let reward_id := rewardId counter
    let reward : Reward :=
      { id := reward_id, learner_id := learner_id, milestone := milestone,
        amount := "100", granted_at := now }
    .ok (reward_id,
      { st with rewards := mapSet st.rewards reward_id reward,
                reward_counter := counter })

/-- `list_rewards` scans `reward_1 .. reward_<counter>` in ascending order,
keeping rewards whose `learner_id` matches. -/
def list_rewards (st : AchievoState) (learner_id : String) : List Reward :=
  (List.range' 1 st.reward_counter).filterMap fun i =>
    match st.rewards (rewardId i) with
    | some reward => if reward.learner_id = learner_id then some reward else none
    | none => none

def validate_certificate (st : AchievoState) (certificate_id : String) :
    Except ContractError (Option CertificateMetadata) :=
  match st.certificates certificate_id with
  | none => .ok none
  | some certificate =>
    if certificate.status = "revoked" then
      .error (.revoked "Certificate has been revoked")
    else
      .ok (some certificate.metadata)

def get_certificate_history (st : AchievoState) (certificate_id : String) :
    List UpdateLog :=
  (st.certificate_history certificate_id).getD []

/-- `process_payment` changes no contract state; on success it returns the
transfer it delegates to the platform.  `amount` is the value of
`BigInt(amount)`, `attached_deposit` the non-negative attached value. -/
def process_payment (st : AchievoState) (recipient_id : String)
    (attached_deposit : Nat) (amount : Int) :
    Except ContractError Transfer :=
  if (attached_deposit : Int) < amount then
    .error (.insufficientFunds "Insufficient attached deposit")
  else if (st.individuals recipient_id).isNone ∧
          (st.organizations recipient_id).isNone then
    .error (.notFound "Recipient not found")
  else
    .ok { recipient := recipient_id, amount := amount }

def get_individual (st : AchievoState) (account_id : String) :
    Option Individual :=
  st.individuals account_id

def get_organization (st : AchievoState) (account_id : String) :
    Option Organization :=
  st.organizations account_id

def get_certificate (st : AchievoState) (certificate_id : String) :
    Option Certificate :=
  st.certificates certificate_id

/-! ## Operation labels, transition function and reachability -/

/-- One external mutating call, together with the platform inputs it
consumes.  `caller` is carried even by the operations whose source never
reads it (`verify_organization`, `grant_reward`), so that
caller-independence is statable. -/
inductive Op where
  | registerIndividual (caller now name dob email : String)
  | registerOrganization (caller now name contact_info : String)
  | verifyOrganization (caller organization_id : String)
  | issueCertificate (caller now learner_id course_id : String)
      (metadata : CertificateMetadata)
  | updateCertificateStatus (caller now certificate_id new_status : String)
  | revokeCertificate (caller now certificate_id reason : String)
  | grantReward (caller now learner_id milestone : String)
  | processPayment (caller recipient_id : String)
      (attached_deposit : Nat) (amount : Int)

/-- Post-state of one call under the platform's atomic apply-or-discard
semantics: on a thrown error the pre-state is kept. -/
def applyOp (st : AchievoState) : Op → AchievoState
  | .registerIndividual caller now name dob email =>
    match register_individual st caller now name dob email with
    | .ok st2 => st2
    | .error _ => st
  | .registerOrganization caller now name contact_info =>
    match register_organization st caller now name contact_info with
    | .ok st2 => st2
    | .error _ => st
  | .verifyOrganization _ organization_id =>
    match verify_organization st organization_id with
    | .ok st2 => st2
    | .error _ => st
  | .issueCertificate caller now learner_id course_id metadata =>
    match issue_certificate st caller now learner_id course_id metadata with
    | .ok (_, st2) => st2
    | .error _ => st
  | .updateCertificateStatus caller now certificate_id new_status =>
    match update_certificate_status st caller now certificate_id new_status with
    | .ok st2 => st2
    | .error _ => st
  | .revokeCertificate caller now certificate_id reason =>
    match revoke_certificate st caller now certificate_id reason with
    | .ok st2 => st2
    | .error _ => st
  | .grantReward _ now learner_id milestone =>
    match grant_reward st now learner_id milestone with
    | .ok (_, st2) => st2
    | .error _ => st
  | .processPayment _ _ _ _ => st

def runOps (st : AchievoState) : List Op → AchievoState
  | [] => st
  | op :: ops => runOps (applyOp st op) ops

/-- States reachable from the freshly constructed contract. -/
inductive Reachable : AchievoState → Prop where
  | init : Reachable initState
  | step {st : AchievoState} (op : Op) : Reachable st → Reachable (applyOp st op)

theorem reachable_runOps {st : AchievoState} (h : Reachable st)
    (ops : List Op) : Reachable (runOps st ops) := by
  induction ops generalizing st with
  | nil => exact h
  | cons op ops ih => exact ih (h.step op)

/-! ## Sequences of certificate mutations (for the history claims) -/

/-- A `update_certificate_status` or `revoke_certificate` call aimed at one
fixed certificate, with its platform inputs. -/
inductive CertMutOp where
  | update (caller now new_status : String)
  | revoke (caller now reason : String)

def CertMutOp.caller : CertMutOp → String
  | .update caller _ _ => caller
  | .revoke caller _ _ => caller

def applyMutExc (cid : String) (st : AchievoState) :
    CertMutOp → Except ContractError AchievoState
  | .update caller now new_status =>
    update_certificate_status st caller now cid new_status
  | .revoke caller now reason =>
    revoke_certificate st caller now cid reason

def applyMut (cid : String) (st : AchievoState) (m : CertMutOp) :
    AchievoState :=
  match applyMutExc cid st m with
  | .ok st2 => st2
  | .error _ => st

def runMuts (cid : String) (st : AchievoState) :
    List CertMutOp → AchievoState
  | [] => st
  | m :: ms => runMuts cid (applyMut cid st m) ms

/-- The single `UpdateLog` entry a successful mutation appends. -/
def mutEntry : CertMutOp → UpdateLog
  | .update caller now new_status =>
    { timestamp := now, action := "status_updated",
      reason := "Status changed to " ++ new_status, by_account := caller }
  | .revoke caller now reason =>
    { timestamp := now, action := "revoked", reason := reason,
      by_account := caller }

/-- The log entries the successful calls of a mutation sequence append, in
call order. -/
def mutLogs (cid : String) (st : AchievoState) :
    List CertMutOp → List UpdateLog
  | [] => []
  | m :: ms =>
    (match applyMutExc cid st m with
     | .ok _ => [mutEntry m]
     | .error _ => []) ++ mutLogs cid (applyMut cid st m) ms

/-- Number of successful calls in a mutation sequence. -/
def countMutSuccess (cid : String) (st : AchievoState) :
    List CertMutOp → Nat
  | [] => 0
  | m :: ms =>
    (match applyMutExc cid st m with
     | .ok _ => 1
     | .error _ => 0) + countMutSuccess cid (applyMut cid st m) ms

/-- The operation failed by throwing an `Unauthorized` error. -/
def isUnauthorizedFailure : Except ContractError AchievoState → Prop
  | .error (.unauthorized _) => True
  | _ => False

/-- The reward record (if any) a single operation grants to one learner. -/
def headGrant (st : AchievoState) (learner_id : String) : Op → List Reward
  | .grantReward _ now lid ms =>
    (match grant_reward st now lid ms with
     | .ok (reward_id, _) =>
       if lid = learner_id then
         [{ id := reward_id, learner_id := lid, milestone := ms,
            amount := "100", granted_at := now }]
       else []
     | .error _ => [])
  | _ => []

/-- The reward records created by the successful `grant_reward` calls of an
operation sequence for one learner, in call order. -/
def grantsOf (st : AchievoState) (learner_id : String) :
    List Op → List Reward
  | [] => []
  | op :: ops =>
    headGrant st learner_id op ++ grantsOf (applyOp st op) learner_id ops

/-! ## Map helper lemmas -/

theorem mapSet_same {α : Type} (m : String → Option α) (k : String) (v : α) :
    mapSet m k v k = some v := by
  simp [mapSet]

theorem mapSet_ne {α : Type} (m : String → Option α) (k : String) (v : α)
    {k2 : String} (h : k2 ≠ k) : mapSet m k v k2 = m k2 := by
  simp [mapSet, h]

/-! ## Success-shape lemmas: what a returned `.ok` tells about the call -/

theorem register_individual_ok {st : AchievoState}
    {caller now name dob email : String} {st2 : AchievoState}
    (h : register_individual st caller now name dob email = .ok st2) :
    st.individuals caller = none ∧
    st2 = { st with individuals :=
              mapSet st.individuals caller ⟨caller, name, dob, email, now⟩ } := by
  unfold register_individual at h
  split at h
  · exact absurd h (by simp)
  · rename_i hi
    refine ⟨hi, ?_⟩
    simp only [Except.ok.injEq] at h
    exact h.symm

theorem register_organization_ok {st : AchievoState}
    {caller now name contact_info : String} {st2 : AchievoState}
    (h : register_organization st caller now name contact_info = .ok st2) :
    st.organizations caller = none ∧
    st2 = { st with organizations := mapSet st.organizations caller
                                       ⟨caller, name, contact_info, false, now⟩ } := by
  unfold register_organization at h
  split at h
  · exact absurd h (by simp)
  · rename_i hi
    refine ⟨hi, ?_⟩
    simp only [Except.ok.injEq] at h
    exact h.symm

theorem verify_organization_ok {st : AchievoState}
    {organization_id : String} {st2 : AchievoState}
    (h : verify_organization st organization_id = .ok st2) :
    ∃ org, st.organizations organization_id = some org ∧
      st2 = { st with organizations := mapSet st.organizations organization_id
                                         { org with verified := true } } := by
  unfold verify_organization at h
  split at h
  · exact absurd h (by simp)
  · rename_i org hi
    refine ⟨org, hi, ?_⟩
    simp only [Except.ok.injEq] at h
    exact h.symm

theorem issue_certificate_ok {st : AchievoState}
    {caller now learner_id course_id : String}
    {metadata : CertificateMetadata} {rid : String} {st2 : AchievoState}
    (h : issue_certificate st caller now learner_id course_id metadata =
           .ok (rid, st2)) :
    ∃ org, st.organizations caller = some org ∧ org.verified = true ∧
      (st.individuals learner_id).isSome = true ∧
      rid = certId (st.certificate_counter + 1) ∧
      st2 = { st with
              certificates := mapSet st.certificates (certId (st.certificate_counter + 1))
                                ⟨certId (st.certificate_counter + 1),
                                 { metadata with
                                   learner_id := learner_id, course_id := course_id,
                                   issuer_org_id := caller },
                                 "pending", now, now⟩,
              certificate_history := mapSet st.certificate_history (certId (st.certificate_counter + 1))
                                       [⟨now, "issued", "Certificate issued", caller⟩],
              certificate_counter := st.certificate_counter + 1 } := by
  unfold issue_certificate at h
  split at h
  · exact absurd h (by simp)
  · rename_i org ho
    refine ⟨org, ho, ?_⟩
    split at h
    · exact absurd h (by simp)
    · rename_i hv
      split at h
      · exact absurd h (by simp)
      · rename_i ind hi
        simp only [Except.ok.injEq, Prod.mk.injEq] at h
        refine ⟨by simpa using hv, by rw [hi]; rfl, h.1.symm, h.2.symm⟩

theorem update_certificate_status_ok {st : AchievoState}
    {caller now certificate_id new_status : String} {st2 : AchievoState}
    (h : update_certificate_status st caller now certificate_id new_status =
           .ok st2) :
    ∃ cert, st.certificates certificate_id = some cert ∧
      cert.metadata.issuer_org_id = caller ∧
      st2 = { st with
              certificates := mapSet st.certificates certificate_id
                                { cert with status := new_status, updated_at := now },
              certificate_history := mapSet st.certificate_history certificate_id
                                       ((st.certificate_history certificate_id).getD [] ++
                                         [⟨now, "status_updated",
                                           "Status changed to " ++ new_status, caller⟩]) } := by
  unfold update_certificate_status at h
  split at h
  · exact absurd h (by simp)
  · rename_i cert hc
    split at h
    · exact absurd h (by simp)
    · rename_i hiss
      push_neg at hiss
      refine ⟨cert, hc, hiss, ?_⟩
      simp only [Except.ok.injEq] at h
      exact h.symm

theorem revoke_certificate_ok {st : AchievoState}
    {caller now certificate_id reason : String} {st2 : AchievoState}
    (h : revoke_certificate st caller now certificate_id reason = .ok st2) :
    ∃ cert, st.certificates certificate_id = some cert ∧
      cert.metadata.issuer_org_id = caller ∧
      st2 = { st with
              certificates := mapSet st.certificates certificate_id
                                { cert with status := "revoked", updated_at := now },
              certificate_history := mapSet st.certificate_history certificate_id
                                       ((st.certificate_history certificate_id).getD [] ++
                                         [⟨now, "revoked", reason, caller⟩]) } := by
  unfold revoke_certificate at h
  split at h
  · exact absurd h (by simp)
  · rename_i cert hc
    split at h
    · exact absurd h (by simp)
    · rename_i hiss
      push_neg at hiss
      refine ⟨cert, hc, hiss, ?_⟩
      simp only [Except.ok.injEq] at h
      exact h.symm

theorem grant_reward_ok {st : AchievoState}
    {now learner_id milestone : String} {rid : String} {st2 : AchievoState}
    (h : grant_reward st now learner_id milestone = .ok (rid, st2)) :
    (st.individuals learner_id).isSome = true ∧
    rid = rewardId (st.reward_counter + 1) ∧
    st2 = { st with
            rewards := mapSet st.rewards (rewardId (st.reward_counter + 1))
                         ⟨rewardId (st.reward_counter + 1), learner_id, milestone,
                          "100", now⟩,
            reward_counter := st.reward_counter + 1 } := by
  unfold grant_reward at h
  split at h
  · exact absurd h (by simp)
  · rename_i ind hi
    simp only [Except.ok.injEq, Prod.mk.injEq] at h
    exact ⟨by rw [hi]; rfl, h.1.symm, h.2.symm⟩

/-! ## History lemmas -/

/-- One mutation call appends its single log entry on success and leaves the
history untouched on failure. -/
theorem history_applyMut (cid : String) (st : AchievoState) (m : CertMutOp) :
    get_certificate_history (applyMut cid st m) cid =
      get_certificate_history st cid ++
        (match applyMutExc cid st m with
         | .ok _ => [mutEntry m]
         | .error _ => []) := by
  cases hr : applyMutExc cid st m with
  | error e => simp [applyMut, hr]
  | ok st2 =>
    simp only [applyMut, hr, List.append_nil]
    cases m with
    | update caller now new_status =>
      obtain ⟨cert, hc, hiss, hst2⟩ := update_certificate_status_ok hr
      subst hst2
      simp [get_certificate_history, mapSet_same, mutEntry]
    | revoke caller now reason =>
      obtain ⟨cert, hc, hiss, hst2⟩ := revoke_certificate_ok hr
      subst hst2
      simp [get_certificate_history, mapSet_same, mutEntry]

/-- Over a whole mutation sequence the history grows by exactly the log
entries of the successful calls, in call order. -/
theorem history_runMuts (cid : String) (ms : List CertMutOp) :
    ∀ st : AchievoState,
      get_certificate_history (runMuts cid st ms) cid =
        get_certificate_history st cid ++ mutLogs cid st ms := by
  induction ms with
  | nil => intro st; simp [runMuts, mutLogs]
  | cons m ms ih =>
    intro st
    simp only [runMuts, mutLogs]
    rw [ih, history_applyMut, List.append_assoc]

theorem mutLogs_length (cid : String) (ms : List CertMutOp) :
    ∀ st : AchievoState,
      (mutLogs cid st ms).length = countMutSuccess cid st ms := by
  induction ms with
  | nil => intro st; simp [mutLogs, countMutSuccess]
  | cons m ms ih =>
    intro st
    simp only [mutLogs, countMutSuccess, List.length_append, ih]
    cases hr : applyMutExc cid st m <;> simp

/-! ## How one operation can change each collection -/

/-- An operation either leaves the certificate collection alone, creates the
certificate with the next counter value, or rewrites an existing key. -/
theorem applyOp_certificates_cases (st : AchievoState) (op : Op) :
    ((applyOp st op).certificate_counter = st.certificate_counter ∧
     (applyOp st op).certificates = st.certificates)
    ∨ (∃ c, (applyOp st op).certificate_counter = st.certificate_counter + 1 ∧
        (applyOp st op).certificates =
          mapSet st.certificates (certId (st.certificate_counter + 1)) c)
    ∨ (∃ k c0 c, st.certificates k = some c0 ∧
        (applyOp st op).certificate_counter = st.certificate_counter ∧
        (applyOp st op).certificates = mapSet st.certificates k c) := by
  cases op with
  | registerIndividual caller now name dob email =>
    left
    simp only [applyOp]
    cases hr : register_individual st caller now name dob email with
    | error e => exact ⟨rfl, rfl⟩
    | ok st2 =>
      obtain ⟨-, hst2⟩ := register_individual_ok hr
      subst hst2; exact ⟨rfl, rfl⟩
  | registerOrganization caller now name contact_info =>
    left
    simp only [applyOp]
    cases hr : register_organization st caller now name contact_info with
    | error e => exact ⟨rfl, rfl⟩
    | ok st2 =>
      obtain ⟨-, hst2⟩ := register_organization_ok hr
      subst hst2; exact ⟨rfl, rfl⟩
  | verifyOrganization caller organization_id =>
    left
    simp only [applyOp]
    cases hr : verify_organization st organization_id with
    | error e => exact ⟨rfl, rfl⟩
    | ok st2 =>
      obtain ⟨org, -, hst2⟩ := verify_organization_ok hr
      subst hst2; exact ⟨rfl, rfl⟩
  | issueCertificate caller now learner_id course_id metadata =>
    simp only [applyOp]
    cases hr : issue_certificate st caller now learner_id course_id metadata with
    | error e => exact Or.inl ⟨rfl, rfl⟩
    | ok p =>
      obtain ⟨rid, st2⟩ := p
      obtain ⟨org, -, -, -, -, hst2⟩ := issue_certificate_ok hr
      subst hst2
      exact Or.inr (Or.inl ⟨_, rfl, rfl⟩)
  | updateCertificateStatus caller now certificate_id new_status =>
    simp only [applyOp]
    cases hr : update_certificate_status st caller now certificate_id new_status with
    | error e => exact Or.inl ⟨rfl, rfl⟩
    | ok st2 =>
      obtain ⟨cert, hc, -, hst2⟩ := update_certificate_status_ok hr
      subst hst2
      exact Or.inr (Or.inr ⟨certificate_id, cert, _, hc, rfl, rfl⟩)
  | revokeCertificate caller now certificate_id reason =>
    simp only [applyOp]
    cases hr : revoke_certificate st caller now certificate_id reason with
    | error e => exact Or.inl ⟨rfl, rfl⟩
    | ok st2 =>
      obtain ⟨cert, hc, -, hst2⟩ := revoke_certificate_ok hr
      subst hst2
      exact Or.inr (Or.inr ⟨certificate_id, cert, _, hc, rfl, rfl⟩)
  | grantReward caller now learner_id milestone =>
    left
    simp only [applyOp]
    cases hr : grant_reward st now learner_id milestone with
    | error e => exact ⟨rfl, rfl⟩
    | ok p =>
      obtain ⟨rid, st2⟩ := p
      obtain ⟨-, -, hst2⟩ := grant_reward_ok hr
      subst hst2; exact ⟨rfl, rfl⟩
  | processPayment caller recipient_id attached_deposit amount =>
    left
    exact ⟨rfl, rfl⟩

/-- An operation either leaves the reward collection alone or creates the
reward with the next reward counter value. -/
theorem applyOp_rewards_cases (st : AchievoState) (op : Op) :
    ((applyOp st op).reward_counter = st.reward_counter ∧
     (applyOp st op).rewards = st.rewards)
    ∨ (∃ r, (applyOp st op).reward_counter = st.reward_counter + 1 ∧
        (applyOp st op).rewards =
          mapSet st.rewards (rewardId (st.reward_counter + 1)) r) := by
  cases op with
  | registerIndividual caller now name dob email =>
    left
    simp only [applyOp]
    cases hr : register_individual st caller now name dob email with
    | error e => exact ⟨rfl, rfl⟩
    | ok st2 =>
      obtain ⟨-, hst2⟩ := register_individual_ok hr
      subst hst2; exact ⟨rfl, rfl⟩
  | registerOrganization caller now name contact_info =>
    left
    simp only [applyOp]
    cases hr : register_organization st caller now name contact_info with
    | error e => exact ⟨rfl, rfl⟩
    | ok st2 =>
      obtain ⟨-, hst2⟩ := register_organization_ok hr
      subst hst2; exact ⟨rfl, rfl⟩
  | verifyOrganization caller organization_id =>
    left
    simp only [applyOp]
    cases hr : verify_organization st organization_id with
    | error e => exact ⟨rfl, rfl⟩
    | ok st2 =>
      obtain ⟨org, -, hst2⟩ := verify_organization_ok hr
      subst hst2; exact ⟨rfl, rfl⟩
  | issueCertificate caller now learner_id course_id metadata =>
    left
    simp only [applyOp]
    cases hr : issue_certificate st caller now learner_id course_id metadata with
    | error e => exact ⟨rfl, rfl⟩
    | ok p =>
      obtain ⟨rid, st2⟩ := p
      obtain ⟨org, -, -, -, -, hst2⟩ := issue_certificate_ok hr
      subst hst2; exact ⟨rfl, rfl⟩
  | updateCertificateStatus caller now certificate_id new_status =>
    left
    simp only [applyOp]
    cases hr : update_certificate_status st caller now certificate_id new_status with
    | error e => exact ⟨rfl, rfl⟩
    | ok st2 =>
      obtain ⟨cert, -, -, hst2⟩ := update_certificate_status_ok hr
      subst hst2; exact ⟨rfl, rfl⟩
  | revokeCertificate caller now certificate_id reason =>
    left
    simp only [applyOp]
    cases hr : revoke_certificate st caller now certificate_id reason with
    | error e => exact ⟨rfl, rfl⟩
    | ok st2 =>
      obtain ⟨cert, -, -, hst2⟩ := revoke_certificate_ok hr
      subst hst2; exact ⟨rfl, rfl⟩
  | grantReward caller now learner_id milestone =>
    simp only [applyOp]
    cases hr : grant_reward st now learner_id milestone with
    | error e => exact Or.inl ⟨rfl, rfl⟩
    | ok p =>
      obtain ⟨rid, st2⟩ := p
      obtain ⟨-, -, hst2⟩ := grant_reward_ok hr
      subst hst2
      exact Or.inr ⟨_, rfl, rfl⟩
  | processPayment caller recipient_id attached_deposit amount =>
    left
    exact ⟨rfl, rfl⟩

/-- An operation either leaves the organizations alone, registers a fresh
unverified one, or turns an existing one's `verified` flag to `true`. -/
theorem applyOp_organizations_cases (st : AchievoState) (op : Op) :
    ((applyOp st op).organizations = st.organizations)
    ∨ (∃ k o, st.organizations k = none ∧ o.verified = false ∧
        (applyOp st op).organizations = mapSet st.organizations k o)
    ∨ (∃ k o, st.organizations k = some o ∧
        (applyOp st op).organizations =
          mapSet st.organizations k { o with verified := true }) := by
  cases op with
  | registerIndividual caller now name dob email =>
    left
    simp only [applyOp]
    cases hr : register_individual st caller now name dob email with
    | error e => rfl
    | ok st2 =>
      obtain ⟨-, hst2⟩ := register_individual_ok hr
      subst hst2; rfl
  | registerOrganization caller now name contact_info =>
    simp only [applyOp]
    cases hr : register_organization st caller now name contact_info with
    | error e => exact Or.inl rfl
    | ok st2 =>
      obtain ⟨hnone, hst2⟩ := register_organization_ok hr
      subst hst2
      exact Or.inr (Or.inl ⟨caller, _, hnone, rfl, rfl⟩)
  | verifyOrganization caller organization_id =>
    simp only [applyOp]
    cases hr : verify_organization st organization_id with
    | error e => exact Or.inl rfl
    | ok st2 =>
      obtain ⟨org, hsome, hst2⟩ := verify_organization_ok hr
      subst hst2
      exact Or.inr (Or.inr ⟨organization_id, org, hsome, rfl⟩)
  | issueCertificate caller now learner_id course_id metadata =>
    left
    simp only [applyOp]
    cases hr : issue_certificate st caller now learner_id course_id metadata with
    | error e => rfl
    | ok p =>
      obtain ⟨rid, st2⟩ := p
      obtain ⟨org, -, -, -, -, hst2⟩ := issue_certificate_ok hr
      subst hst2; rfl
  | updateCertificateStatus caller now certificate_id new_status =>
    left
    simp only [applyOp]
    cases hr : update_certificate_status st caller now certificate_id new_status with
    | error e => rfl
    | ok st2 =>
      obtain ⟨cert, -, -, hst2⟩ := update_certificate_status_ok hr
      subst hst2; rfl
  | revokeCertificate caller now certificate_id reason =>
    left
    simp only [applyOp]
    cases hr : revoke_certificate st caller now certificate_id reason with
    | error e => rfl
    | ok st2 =>
      obtain ⟨cert, -, -, hst2⟩ := revoke_certificate_ok hr
      subst hst2; rfl
  | grantReward caller now learner_id milestone =>
    left
    simp only [applyOp]
    cases hr : grant_reward st now learner_id milestone with
    | error e => rfl
    | ok p =>
      obtain ⟨rid, st2⟩ := p
      obtain ⟨-, -, hst2⟩ := grant_reward_ok hr
      subst hst2; rfl
  | processPayment caller recipient_id attached_deposit amount =>
    left
    rfl

/-! ## Reachability invariants -/

theorem range'_one_concat (n : Nat) :
    ∀ s, List.range' s (n + 1) = List.range' s n ++ [s + n] := by
  induction n with
  | zero => intro s; simp [List.range'_succ]
  | succ k ih =>
    intro s
    rw [List.range'_succ, ih (s + 1), List.range'_succ]
    simp
    omega

/-- Every key holding a certificate is `cert_<m>` for some `m` at most the
certificate counter. -/
def certKeysBounded (st : AchievoState) : Prop :=
  ∀ k, (st.certificates k).isSome = true →
    ∃ m, m ≤ st.certificate_counter ∧ k = certId m

theorem certKeysBounded_applyOp {st : AchievoState} (op : Op)
    (h : certKeysBounded st) : certKeysBounded (applyOp st op) := by
  rcases applyOp_certificates_cases st op with
    ⟨hcnt, hmap⟩ | ⟨c, hcnt, hmap⟩ | ⟨k0, c0, c, hk0, hcnt, hmap⟩
  · intro k hk
    rw [hmap] at hk
    rw [hcnt]
    exact h k hk
  · intro k hk
    rw [hmap] at hk
    rw [hcnt]
    by_cases hkeq : k = certId (st.certificate_counter + 1)
    · exact ⟨st.certificate_counter + 1, le_refl _, hkeq⟩
    · rw [mapSet_ne _ _ _ hkeq] at hk
      obtain ⟨m, hm, hkm⟩ := h k hk
      exact ⟨m, Nat.le_succ_of_le hm, hkm⟩
  · intro k hk
    rw [hmap] at hk
    rw [hcnt]
    by_cases hkeq : k = k0
    · subst hkeq
      exact h k (by rw [hk0]; rfl)
    · rw [mapSet_ne _ _ _ hkeq] at hk
      exact h k hk

theorem reachable_certKeysBounded {st : AchievoState} (h : Reachable st) :
    certKeysBounded st := by
  induction h with
  | init =>
    intro k hk
    simp [initState] at hk
  | step op _ ih => exact certKeysBounded_applyOp op ih

/-- No reward is stored past the reward counter. -/
def rewardKeysBounded (st : AchievoState) : Prop :=
  ∀ i, st.reward_counter < i → st.rewards (rewardId i) = none

theorem rewardKeysBounded_applyOp {st : AchievoState} (op : Op)
    (h : rewardKeysBounded st) : rewardKeysBounded (applyOp st op) := by
  rcases applyOp_rewards_cases st op with ⟨hcnt, hmap⟩ | ⟨r, hcnt, hmap⟩
  · intro i hi
    rw [hcnt] at hi
    rw [hmap]
    exact h i hi
  · intro i hi
    rw [hcnt] at hi
    rw [hmap]
    have hne : rewardId i ≠ rewardId (st.reward_counter + 1) :=
      fun he => absurd (rewardId_injective he) (by omega)
    rw [mapSet_ne _ _ _ hne]
    exact h i (by omega)

theorem reachable_rewardKeysBounded {st : AchievoState} (h : Reachable st) :
    rewardKeysBounded st := by
  induction h with
  | init =>
    intro i hi
    rfl
  | step op _ ih => exact rewardKeysBounded_applyOp op ih

/-! ## `list_rewards` against the grant trace -/

theorem list_rewards_congr {a b : AchievoState} (h1 : a.rewards = b.rewards)
    (h2 : a.reward_counter = b.reward_counter) (lid : String) :
    list_rewards a lid = list_rewards b lid := by
  unfold list_rewards
  rw [h1, h2]

theorem list_rewards_applyOp (st : AchievoState) (op : Op) (lid : String) :
    list_rewards (applyOp st op) lid =
      list_rewards st lid ++ grantsOf st lid [op] := by
  have hnil : ∀ st2 : AchievoState, grantsOf st2 lid [] = [] := fun _ => rfl
  cases op with
  | grantReward caller now l ms =>
    cases hr : grant_reward st now l ms with
    | error e =>
      simp only [applyOp, grantsOf, headGrant, hr, hnil, List.append_nil]
    | ok p =>
      obtain ⟨rid, st2⟩ := p
      obtain ⟨hi, hrid, hst2⟩ := grant_reward_ok hr
      simp only [applyOp, grantsOf, headGrant, hr, hnil, List.append_nil]
      subst hst2
      unfold list_rewards
      simp only []
      rw [show st.reward_counter + 1 = st.reward_counter + 1 from rfl]
      rw [range'_one_concat st.reward_counter 1, List.filterMap_append]
      congr 1
      · apply List.filterMap_congr
        intro i hi2
        rw [List.mem_range'_1] at hi2
        have hne : rewardId i ≠ rewardId (st.reward_counter + 1) :=
          fun he => absurd (rewardId_injective he) (by omega)
        rw [mapSet_ne _ _ _ hne]
      · have h1c : 1 + st.reward_counter = st.reward_counter + 1 := by omega
        simp only [List.filterMap, h1c, mapSet_same]
        subst hrid
        by_cases hl : l = lid
        · subst hl; simp
        · simp [hl]
  | registerIndividual caller now name dob email =>
    simp only [applyOp, grantsOf, headGrant, hnil, List.append_nil]
    cases hr : register_individual st caller now name dob email with
    | error e => simp
    | ok stx =>
      obtain ⟨-, hstx⟩ := register_individual_ok hr
      subst hstx
      simp [list_rewards_congr rfl rfl]
      exact list_rewards_congr rfl rfl lid
  | registerOrganization caller now name contact_info =>
    simp only [applyOp, grantsOf, headGrant, hnil, List.append_nil]
    cases hr : register_organization st caller now name contact_info with
    | error e => simp
    | ok stx =>
      obtain ⟨-, hstx⟩ := register_organization_ok hr
      subst hstx
      simp
      exact list_rewards_congr rfl rfl lid
  | verifyOrganization caller organization_id =>
    simp only [applyOp, grantsOf, headGrant, hnil, List.append_nil]
    cases hr : verify_organization st organization_id with
    | error e => simp
    | ok stx =>
      obtain ⟨org, -, hstx⟩ := verify_organization_ok hr
      subst hstx
      simp
      exact list_rewards_congr rfl rfl lid
  | issueCertificate caller now learner_id course_id metadata =>
    simp only [applyOp, grantsOf, headGrant, hnil, List.append_nil]
    cases hr : issue_certificate st caller now learner_id course_id metadata with
    | error e => simp
    | ok p =>
      obtain ⟨rid, stx⟩ := p
      obtain ⟨org, -, -, -, -, hstx⟩ := issue_certificate_ok hr
      subst hstx
      simp
      exact list_rewards_congr rfl rfl lid
  | updateCertificateStatus caller now certificate_id new_status =>
    simp only [applyOp, grantsOf, headGrant, hnil, List.append_nil]
    cases hr : update_certificate_status st caller now certificate_id new_status with
    | error e => simp
    | ok stx =>
      obtain ⟨cert, -, -, hstx⟩ := update_certificate_status_ok hr
      subst hstx
      simp
      exact list_rewards_congr rfl rfl lid
  | revokeCertificate caller now certificate_id reason =>
    simp only [applyOp, grantsOf, headGrant, hnil, List.append_nil]
    cases hr : revoke_certificate st caller now certificate_id reason with
    | error e => simp
    | ok stx =>
      obtain ⟨cert, -, -, hstx⟩ := revoke_certificate_ok hr
      subst hstx
      simp
      exact list_rewards_congr rfl rfl lid
  | processPayment caller recipient_id attached_deposit amount =>
    simp only [applyOp, grantsOf, headGrant, hnil, List.append_nil]

theorem list_rewards_runOps (ops : List Op) :
    ∀ (st : AchievoState) (lid : String),
      list_rewards (runOps st ops) lid =
        list_rewards st lid ++ grantsOf st lid ops := by
  induction ops with
  | nil =>
    intro st lid
    simp [runOps, grantsOf]
  | cons op ops ih =>
    intro st lid
    simp only [runOps]
    rw [ih (applyOp st op) lid, list_rewards_applyOp st op lid]
    show _ = list_rewards st lid ++ grantsOf st lid (op :: ops)
    have hcons : grantsOf st lid (op :: ops) =
        grantsOf st lid [op] ++ grantsOf (applyOp st op) lid ops := by
      simp [grantsOf]
    rw [hcons, List.append_assoc]

theorem reward_counter_applyOp_le (st : AchievoState) (op : Op) :
    st.reward_counter ≤ (applyOp st op).reward_counter := by
  rcases applyOp_rewards_cases st op with ⟨h, -⟩ | ⟨r, h, -⟩ <;> omega

/-- One operation grants at most one reward; when it does, the reward id is
the next counter value and the counter advances. -/
theorem headGrant_cases (st : AchievoState) (lid : String) (op : Op) :
    headGrant st lid op = []
    ∨ ∃ r, headGrant st lid op = [r] ∧
        r.id = rewardId (st.reward_counter + 1) ∧
        (applyOp st op).reward_counter = st.reward_counter + 1 := by
  cases op with
  | grantReward caller now l ms =>
    cases hr : grant_reward st now l ms with
    | error e => left; simp [headGrant, hr]
    | ok p =>
      obtain ⟨rid, st2⟩ := p
      obtain ⟨-, hrid, hst2⟩ := grant_reward_ok hr
      by_cases hl : l = lid
      · right
        subst hl
        refine ⟨⟨rid, l, ms, "100", now⟩, ?_, hrid, ?_⟩
        · simp [headGrant, hr]
        · simp only [applyOp, hr]
          rw [hst2]
      · left; simp [headGrant, hr, hl]
  | registerIndividual caller now name dob email => left; rfl
  | registerOrganization caller now name contact_info => left; rfl
  | verifyOrganization caller organization_id => left; rfl
  | issueCertificate caller now learner_id course_id metadata => left; rfl
  | updateCertificateStatus caller now certificate_id new_status => left; rfl
  | revokeCertificate caller now certificate_id reason => left; rfl
  | processPayment caller recipient_id attached_deposit amount => left; rfl

/-- The rewards a trace grants carry strictly increasing reward indices, all
beyond the starting counter. -/
theorem grantsOf_ids (ops : List Op) :
    ∀ (st : AchievoState) (lid : String),
      ∃ idxs : List Nat,
        (grantsOf st lid ops).map Reward.id = idxs.map rewardId ∧
        idxs.Chain' (· < ·) ∧ ∀ i ∈ idxs, st.reward_counter < i := by
  induction ops with
  | nil =>
    intro st lid
    exact ⟨[], rfl, List.chain'_nil, by simp⟩
  | cons op ops ih =>
    intro st lid
    obtain ⟨idxs, hmap, hchain, hgt⟩ := ih (applyOp st op) lid
    have hle := reward_counter_applyOp_le st op
    have hgrants : grantsOf st lid (op :: ops) =
        headGrant st lid op ++ grantsOf (applyOp st op) lid ops := rfl
    rcases headGrant_cases st lid op with hnone | ⟨r, hone, hridx, hcnt⟩
    · refine ⟨idxs, ?_, hchain, fun i hi => lt_of_le_of_lt hle (hgt i hi)⟩
      rw [hgrants, hnone, List.nil_append, hmap]
    · refine ⟨(st.reward_counter + 1) :: idxs, ?_, ?_, ?_⟩
      · rw [hgrants, hone, List.map_append, hmap]
        simp [hridx]
      · rw [List.chain'_cons']
        refine ⟨?_, hchain⟩
        intro b hb
        have hbmem : b ∈ idxs := List.mem_of_mem_head? hb
        have := hgt b hbmem
        omega
      · intro i hi
        rcases List.mem_cons.mp hi with heq | htail
        · omega
        · have := hgt i htail
          omega

/-! ## A concrete scenario shared by the witnesses -/

def opsW : List Op :=
  [ .registerIndividual "alice" "t0" "Alice" "2000-01-01" "alice@mail",
    .registerOrganization "school" "t0" "School" "contact",
    .verifyOrganization "admin" "school" ]

/-- alice registered, school registered and verified. -/
def stW : AchievoState := runOps initState opsW

theorem stW_reachable : Reachable stW :=
  reachable_runOps Reachable.init opsW

def orgSchool : Organization := ⟨"school", "School", "contact", true, "t0"⟩

def indAlice : Individual := ⟨"alice", "Alice", "2000-01-01", "alice@mail", "t0"⟩

def metaW : CertificateMetadata :=
  { learner_id := "x", course_id := "y", course_name := "Course 1",
    completion_date := "2024-01-01", issuer_org_id := "z",
    skills := ["solidity"], grade := some "A" }

/-- `stW` after school issued `cert_1` to alice. -/
def stW2 : AchievoState :=
  runOps stW [.issueCertificate "school" "t1" "alice" "course1" metaW]

theorem stW2_reachable : Reachable stW2 :=
  reachable_runOps stW_reachable _

/-- `stW2` after school revoked `cert_1`. -/
def stW3 : AchievoState :=
  runOps stW2 [.revokeCertificate "school" "t2" "cert_1" "fraud"]

/-! ## Claims -/

/-- C1: for every reachable state, `issue_certificate` fails with
`Unauthorized` unless the caller is a registered Organization with
`verified = true`; fails with `NotFound` if the learner is not a registered
Individual; otherwise it returns the fresh id `cert_<counter+1>`, strictly
greater than the index of every previously stored certificate id (and not
previously in use), stores the certificate with status `"pending"`, and the
new id's history is exactly one `"issued"` entry. -/
theorem c1_issue_certificate (st : AchievoState) (hreach : Reachable st)
    (caller now learner_id course_id : String)
    (metadata : CertificateMetadata) :
    ((∀ org, st.organizations caller = some org → org.verified = false) →
      issue_certificate st caller now learner_id course_id metadata =
        .error (.unauthorized "Only verified organizations can issue certificates"))
    ∧ (∀ org, st.organizations caller = some org → org.verified = true →
        st.individuals learner_id = none →
        issue_certificate st caller now learner_id course_id metadata =
          .error (.notFound "Learner not found"))
    ∧ (∀ org ind, st.organizations caller = some org → org.verified = true →
        st.individuals learner_id = some ind →
        ∃ st2,
          issue_certificate st caller now learner_id course_id metadata =
            .ok (certId (st.certificate_counter + 1), st2)
          ∧ st.certificates (certId (st.certificate_counter + 1)) = none
          ∧ (∀ k, (st.certificates k).isSome = true →
              ∃ m, m < st.certificate_counter + 1 ∧ k = certId m)
          ∧ (∃ cert, st2.certificates (certId (st.certificate_counter + 1)) =
                some cert ∧ cert.status = "pending")
          ∧ get_certificate_history st2 (certId (st.certificate_counter + 1)) =
              [⟨now, "issued", "Certificate issued", caller⟩]) := by
  have hb := reachable_certKeysBounded hreach
  refine ⟨?_, ?_, ?_⟩
  · intro hunv
    cases ho : st.organizations caller with
    | none => simp only [issue_certificate, ho]
    | some org =>
      simp only [issue_certificate, ho]
      rw [if_pos (hunv org ho)]
  · intro org ho hv hi
    simp only [issue_certificate, ho, hi, hv]
    rw [if_neg (by simp)]
  · intro org ind ho hv hi
    have hok : issue_certificate st caller now learner_id course_id metadata =
        .ok (certId (st.certificate_counter + 1),
          { st with
            certificates := mapSet st.certificates (certId (st.certificate_counter + 1))
                              ⟨certId (st.certificate_counter + 1),
                               { metadata with
                                 learner_id := learner_id, course_id := course_id,
                                 issuer_org_id := caller },
                               "pending", now, now⟩,
            certificate_history := mapSet st.certificate_history (certId (st.certificate_counter + 1))
                                     [⟨now, "issued", "Certificate issued", caller⟩],
            certificate_counter := st.certificate_counter + 1 }) := by
      simp only [issue_certificate, ho, hi, hv]
      rw [if_neg (by simp)]
    refine ⟨_, hok, ?_, ?_, ?_, ?_⟩
    · cases hcur : st.certificates (certId (st.certificate_counter + 1)) with
      | none => rfl
      | some c0 =>
        obtain ⟨m, hm, hkm⟩ := hb _ (by rw [hcur]; rfl)
        have := certId_injective hkm.symm
        omega
    · intro k hk
      obtain ⟨m, hm, hkm⟩ := hb k hk
      exact ⟨m, by omega, hkm⟩
    · exact ⟨_, mapSet_same _ _ _, rfl⟩
    · simp [get_certificate_history, mapSet_same]

/-- Witness for C1: in the concrete scenario `stW`, the verified `school`
issues to registered `alice` and all the success conclusions hold. -/
theorem c1_issue_certificate_witness :
    ∃ st2,
      issue_certificate stW "school" "t1" "alice" "course1" metaW =
        .ok (certId (stW.certificate_counter + 1), st2)
      ∧ stW.certificates (certId (stW.certificate_counter + 1)) = none
      ∧ (∀ k, (stW.certificates k).isSome = true →
          ∃ m, m < stW.certificate_counter + 1 ∧ k = certId m)
      ∧ (∃ cert, st2.certificates (certId (stW.certificate_counter + 1)) =
            some cert ∧ cert.status = "pending")
      ∧ get_certificate_history st2 (certId (stW.certificate_counter + 1)) =
          [⟨"t1", "issued", "Certificate issued", "school"⟩] :=
  (c1_issue_certificate stW stW_reachable "school" "t1" "alice" "course1"
    metaW).2.2 orgSchool indAlice (by decide) (by decide) (by decide)

/-- C2: `validate_certificate` returns `.ok none` (absent, not a failure)
when no certificate exists; throws a `Revoked` error when the stored status
is `"revoked"`; and otherwise returns the stored metadata unchanged. -/
theorem c2_validate_certificate (st : AchievoState) (certificate_id : String) :
    (st.certificates certificate_id = none →
      validate_certificate st certificate_id = .ok none)
    ∧ (∀ cert, st.certificates certificate_id = some cert →
        cert.status = "revoked" →
        validate_certificate st certificate_id =
          .error (.revoked "Certificate has been revoked"))
    ∧ (∀ cert, st.certificates certificate_id = some cert →
        cert.status ≠ "revoked" →
        validate_certificate st certificate_id = .ok (some cert.metadata)) := by
  refine ⟨?_, ?_, ?_⟩
  · intro h
    simp only [validate_certificate, h]
  · intro cert h hrev
    simp only [validate_certificate, h]
    rw [if_pos hrev]
  · intro cert h hrev
    simp only [validate_certificate, h]
    rw [if_neg hrev]

/-- Witness for C2: in the concrete scenario, a missing id yields `.ok none`,
the revoked `cert_1` throws `Revoked`, and the pending `cert_1` returns its
stored metadata. -/
theorem c2_validate_certificate_witness :
    validate_certificate stW "cert_9" = .ok none
    ∧ validate_certificate stW3 "cert_1" =
        .error (.revoked "Certificate has been revoked")
    ∧ validate_certificate stW2 "cert_1" =
        .ok (some ⟨"alice", "course1", "Course 1", "2024-01-01", "school",
                   ["solidity"], some "A"⟩) :=
  ⟨(c2_validate_certificate stW "cert_9").1 (by decide),
   (c2_validate_certificate stW3 "cert_1").2.1
     ⟨"cert_1", ⟨"alice", "course1", "Course 1", "2024-01-01", "school",
                 ["solidity"], some "A"⟩, "revoked", "t1", "t2"⟩
     (by decide) (by decide),
   (c2_validate_certificate stW2 "cert_1").2.2
     ⟨"cert_1", ⟨"alice", "course1", "Course 1", "2024-01-01", "school",
                 ["solidity"], some "A"⟩, "pending", "t1", "t1"⟩
     (by decide) (by decide)⟩

/-- C3: over any sequence of `update_certificate_status`/`revoke_certificate`
calls aimed at one certificate, the history grows by exactly the log entries
of the successful calls in call order; starting from the single issuance
entry its length is `1 + number of successful mutating calls`; and a call by
a non-issuer fails with `Unauthorized` and leaves the state (hence the
history) unchanged. -/
theorem c3_certificate_history (cid : String) :
    (∀ (st : AchievoState) (ms : List CertMutOp),
      get_certificate_history (runMuts cid st ms) cid =
        get_certificate_history st cid ++ mutLogs cid st ms)
    ∧ (∀ (st : AchievoState) (ms : List CertMutOp) (e : UpdateLog),
        st.certificate_history cid = some [e] →
        (get_certificate_history (runMuts cid st ms) cid).length =
          1 + countMutSuccess cid st ms)
    ∧ (∀ (st : AchievoState) (m : CertMutOp) (cert : Certificate),
        st.certificates cid = some cert →
        cert.metadata.issuer_org_id ≠ m.caller →
        isUnauthorizedFailure (applyMutExc cid st m) ∧
          applyMut cid st m = st) := by
  refine ⟨fun st ms => history_runMuts cid ms st, ?_, ?_⟩
  · intro st ms e he
    rw [history_runMuts cid ms st, List.length_append, mutLogs_length]
    simp [get_certificate_history, he]
  · intro st m cert hc hne
    cases m with
    | update caller now new_status =>
      simp only [CertMutOp.caller] at hne
      have herr : applyMutExc cid st (.update caller now new_status) =
          .error (.unauthorized "Unauthorized to update this certificate") := by
        simp only [applyMutExc, update_certificate_status, hc]
        rw [if_pos hne]
      refine ⟨?_, ?_⟩
      · rw [herr]; trivial
      · simp only [applyMut, herr]
    | revoke caller now reason =>
      simp only [CertMutOp.caller] at hne
      have herr : applyMutExc cid st (.revoke caller now reason) =
          .error (.unauthorized "Unauthorized to revoke this certificate") := by
        simp only [applyMutExc, revoke_certificate, hc]
        rw [if_pos hne]
      refine ⟨?_, ?_⟩
      · rw [herr]; trivial
      · simp only [applyMut, herr]

/-- Witness for C3: on the issued `cert_1`, a successful update by `school`,
a failing update by `mallory` and a successful revoke give history length
`1 + 2`; the `mallory` call alone fails `Unauthorized` and changes nothing. -/
theorem c3_certificate_history_witness :
    (get_certificate_history
        (runMuts "cert_1" stW2
          [.update "school" "t2" "completed",
           .update "mallory" "t3" "hacked",
           .revoke "school" "t4" "fraud"]) "cert_1").length =
      1 + countMutSuccess "cert_1" stW2
            [.update "school" "t2" "completed",
             .update "mallory" "t3" "hacked",
             .revoke "school" "t4" "fraud"]
    ∧ isUnauthorizedFailure
        (applyMutExc "cert_1" stW2 (.update "mallory" "t3" "hacked"))
    ∧ applyMut "cert_1" stW2 (.update "mallory" "t3" "hacked") = stW2 :=
  ⟨(c3_certificate_history "cert_1").2.1 stW2
     [.update "school" "t2" "completed", .update "mallory" "t3" "hacked",
      .revoke "school" "t4" "fraud"]
     ⟨"t1", "issued", "Certificate issued", "school"⟩ (by decide),
   ((c3_certificate_history "cert_1").2.2 stW2
     (.update "mallory" "t3" "hacked")
     ⟨"cert_1", ⟨"alice", "course1", "Course 1", "2024-01-01", "school",
                 ["solidity"], some "A"⟩, "pending", "t1", "t1"⟩
     (by decide) (by decide)).1,
   ((c3_certificate_history "cert_1").2.2 stW2
     (.update "mallory" "t3" "hacked")
     ⟨"cert_1", ⟨"alice", "course1", "Course 1", "2024-01-01", "school",
                 ["solidity"], some "A"⟩, "pending", "t1", "t1"⟩
     (by decide) (by decide)).2⟩

/-- C9: `"revoked"` is not enforced as terminal: the bound issuer can set
any status string on a revoked certificate, the status is stored as given,
and when the new status is not `"revoked"` the certificate validates again
(returning its metadata). -/
theorem c9_revoked_not_terminal (st : AchievoState)
    (caller now certificate_id new_status : String) (cert : Certificate)
    (hc : st.certificates certificate_id = some cert)
    (hiss : cert.metadata.issuer_org_id = caller)
    (_hrev : cert.status = "revoked") :
    ∃ st2,
      update_certificate_status st caller now certificate_id new_status =
        .ok st2
      ∧ st2.certificates certificate_id =
          some { cert with status := new_status, updated_at := now }
      ∧ (new_status ≠ "revoked" →
          validate_certificate st2 certificate_id =
            .ok (some cert.metadata)) := by
  have hok : update_certificate_status st caller now certificate_id new_status =
      .ok { st with
            certificates := mapSet st.certificates certificate_id
                              { cert with status := new_status, updated_at := now },
            certificate_history := mapSet st.certificate_history certificate_id
                                     ((st.certificate_history certificate_id).getD [] ++
                                       [⟨now, "status_updated",
                                         "Status changed to " ++ new_status, caller⟩]) } := by
    simp only [update_certificate_status, hc]
    rw [if_neg (by simp [hiss])]
  refine ⟨_, hok, mapSet_same _ _ _, ?_⟩
  intro hns
  simp only [validate_certificate, mapSet_same]
  rw [if_neg hns]

/-- Witness for C9: `school` moves the revoked `cert_1` back to
`"completed"` and it validates again. -/
theorem c9_revoked_not_terminal_witness :
    ∃ st2,
      update_certificate_status stW3 "school" "t5" "cert_1" "completed" =
        .ok st2
      ∧ st2.certificates "cert_1" =
          some ⟨"cert_1", ⟨"alice", "course1", "Course 1", "2024-01-01",
                           "school", ["solidity"], some "A"⟩,
                "completed", "t1", "t5"⟩
      ∧ ("completed" ≠ "revoked" →
          validate_certificate st2 "cert_1" =
            .ok (some ⟨"alice", "course1", "Course 1", "2024-01-01",
                       "school", ["solidity"], some "A"⟩)) :=
  c9_revoked_not_terminal stW3 "school" "t5" "cert_1" "completed"
    ⟨"cert_1", ⟨"alice", "course1", "Course 1", "2024-01-01", "school",
                ["solidity"], some "A"⟩, "revoked", "t1", "t2"⟩
    (by decide) (by decide) (by decide)

/-- C5: `verify_organization` fails with `NotFound` when the organization is
missing and otherwise sets `verified := true`; it performs no caller-role
check (its outcome is identical for any two callers); and no operation of
the contract ever turns a `verified = true` flag back off. -/
theorem c5_verify_organization (st : AchievoState) (organization_id : String) :
    (st.organizations organization_id = none →
      verify_organization st organization_id =
        .error (.notFound "Organization not found"))
    ∧ (∀ org, st.organizations organization_id = some org →
        verify_organization st organization_id =
          .ok { st with organizations := mapSet st.organizations organization_id
                                           { org with verified := true } })
    ∧ (∀ c1 c2 : String,
        applyOp st (.verifyOrganization c1 organization_id) =
          applyOp st (.verifyOrganization c2 organization_id))
    ∧ (∀ (op : Op) (oid : String) (org : Organization),
        st.organizations oid = some org → org.verified = true →
        ∃ org2, (applyOp st op).organizations oid = some org2 ∧
          org2.verified = true) := by
  refine ⟨?_, ?_, ?_, ?_⟩
  · intro h
    simp only [verify_organization, h]
  · intro org h
    simp only [verify_organization, h]
  · intro c1 c2
    rfl
  · intro op oid org h hv
    rcases applyOp_organizations_cases st op with
      hsame | ⟨k, o, hknone, hov, hmap⟩ | ⟨k, o, hksome, hmap⟩
    · rw [hsame]
      exact ⟨org, h, hv⟩
    · rw [hmap]
      by_cases hk : oid = k
      · subst hk
        rw [h] at hknone
        exact absurd hknone (by simp)
      · rw [mapSet_ne _ _ _ hk]
        exact ⟨org, h, hv⟩
    · rw [hmap]
      by_cases hk : oid = k
      · subst hk
        exact ⟨{ o with verified := true }, mapSet_same _ _ _, rfl⟩
      · rw [mapSet_ne _ _ _ hk]
        exact ⟨org, h, hv⟩

/-- Witness for C5: a missing organization fails `NotFound`, verifying
`school` stores `verified = true`, and after a further register operation
`school` remains verified. -/
theorem c5_verify_organization_witness :
    verify_organization stW "nobody" = .error (.notFound "Organization not found")
    ∧ verify_organization stW "school" =
        .ok { stW with organizations := mapSet stW.organizations "school"
                                          { orgSchool with verified := true } }
    ∧ (∃ org2, (applyOp stW
          (.registerOrganization "acme" "t9" "Acme" "c")).organizations
            "school" = some org2 ∧ org2.verified = true) :=
  ⟨(c5_verify_organization stW "nobody").1 (by decide),
   (c5_verify_organization stW "school").2.1 orgSchool (by decide),
   (c5_verify_organization stW "school").2.2.2
     (.registerOrganization "acme" "t9" "Acme" "c") "school" orgSchool
     (by decide) (by decide)⟩

/-- C6: a successful `issue_certificate` stores metadata whose `learner_id`,
`course_id` and `issuer_org_id` come from the explicit parameters and the
caller identity (any caller-supplied values for those fields are discarded),
while the remaining fields are stored as supplied. -/
theorem c6_metadata_override (st : AchievoState)
    (caller now learner_id course_id : String)
    (metadata : CertificateMetadata) (rid : String) (st2 : AchievoState)
    (h : issue_certificate st caller now learner_id course_id metadata =
           .ok (rid, st2)) :
    ∃ cert, st2.certificates rid = some cert ∧
      cert.metadata.learner_id = learner_id ∧
      cert.metadata.course_id = course_id ∧
      cert.metadata.issuer_org_id = caller ∧
      cert.metadata.course_name = metadata.course_name ∧
      cert.metadata.completion_date = metadata.completion_date ∧
      cert.metadata.skills = metadata.skills ∧
      cert.metadata.grade = metadata.grade := by
  obtain ⟨org, -, -, -, hrid, hst2⟩ := issue_certificate_ok h
  subst hst2
  subst hrid
  exact ⟨_, mapSet_same _ _ _, rfl, rfl, rfl, rfl, rfl, rfl, rfl⟩

/-- Witness for C6: `metaW` carries bogus `learner_id`/`course_id`/
`issuer_org_id` values `"x"`/`"y"`/`"z"`; the stored certificate replaces
them with `"alice"`/`"course1"`/`"school"` and keeps the other fields. -/
theorem c6_metadata_override_witness :
    ∃ cert, stW2.certificates "cert_1" = some cert ∧
      cert.metadata.learner_id = "alice" ∧
      cert.metadata.course_id = "course1" ∧
      cert.metadata.issuer_org_id = "school" ∧
      cert.metadata.course_name = metaW.course_name ∧
      cert.metadata.completion_date = metaW.completion_date ∧
      cert.metadata.skills = metaW.skills ∧
      cert.metadata.grade = metaW.grade :=
  c6_metadata_override stW "school" "t1" "alice" "course1" metaW
    "cert_1" stW2 (by rfl)

/-- C7: `list_rewards` returns exactly the rewards granted by the successful
`grant_reward` calls of the trace, in call order; their reward ids are
strictly increasing; and `grant_reward` fails with `NotFound` when the
learner is not a registered Individual. -/
theorem c7_list_rewards (lid : String) :
    (∀ ops : List Op,
      list_rewards (runOps initState ops) lid = grantsOf initState lid ops)
    ∧ (∀ ops : List Op, ∃ idxs : List Nat,
        (grantsOf initState lid ops).map Reward.id = idxs.map rewardId ∧
        idxs.Chain' (· < ·))
    ∧ (∀ (st : AchievoState) (now milestone : String),
        st.individuals lid = none →
        grant_reward st now lid milestone =
          .error (.notFound "Learner not found")) := by
  refine ⟨?_, ?_, ?_⟩
  · intro ops
    rw [list_rewards_runOps ops initState lid]
    have hempty : list_rewards initState lid = [] := rfl
    rw [hempty, List.nil_append]
  · intro ops
    obtain ⟨idxs, h1, h2, -⟩ := grantsOf_ids ops initState lid
    exact ⟨idxs, h1, h2⟩
  · intro st now milestone hnone
    simp only [grant_reward, hnone]

/-- Witness for C7: granting to an unregistered learner fails `NotFound`;
and on a concrete trace with two grants to alice and one to nobody,
`list_rewards` returns exactly alice's two rewards in order. -/
theorem c7_list_rewards_witness :
    grant_reward initState "t0" "ghost" "m" =
      .error (.notFound "Learner not found")
    ∧ list_rewards
        (runOps initState
          (opsW ++ [.grantReward "a" "t2" "alice" "m1",
                    .grantReward "b" "t3" "alice" "m2"])) "alice" =
        grantsOf initState "alice"
          (opsW ++ [.grantReward "a" "t2" "alice" "m1",
                    .grantReward "b" "t3" "alice" "m2"]) :=
  ⟨(c7_list_rewards "ghost").2.2 initState "t0" "m" rfl,
   (c7_list_rewards "alice").1
     (opsW ++ [.grantReward "a" "t2" "alice" "m1",
               .grantReward "b" "t3" "alice" "m2"])⟩

/-- C8: a second `register_individual` on an account that already has an
Individual record, and a second `register_organization` on an account that
already has an Organization record, fail with `AlreadyRegistered` and leave
the whole contract state unchanged. -/
theorem c8_duplicate_registration (st : AchievoState)
    (caller now name dob email contact_info : String) :
    (∀ ind, st.individuals caller = some ind →
      register_individual st caller now name dob email =
        .error (.alreadyRegistered "Individual already registered")
      ∧ applyOp st (.registerIndividual caller now name dob email) = st)
    ∧ (∀ org, st.organizations caller = some org →
      register_organization st caller now name contact_info =
        .error (.alreadyRegistered "Organization already registered")
      ∧ applyOp st (.registerOrganization caller now name contact_info) = st) := by
  constructor
  · intro ind hi
    have herr : register_individual st caller now name dob email =
        .error (.alreadyRegistered "Individual already registered") := by
      simp only [register_individual, hi]
    exact ⟨herr, by simp only [applyOp, herr]⟩
  · intro org ho
    have herr : register_organization st caller now name contact_info =
        .error (.alreadyRegistered "Organization already registered") := by
      simp only [register_organization, ho]
    exact ⟨herr, by simp only [applyOp, herr]⟩

/-- Witness for C8: re-registering `alice` and `school` in the concrete
scenario fails with `AlreadyRegistered` and the state is untouched. -/
theorem c8_duplicate_registration_witness :
    (register_individual stW "alice" "t9" "A2" "d2" "e2" =
        .error (.alreadyRegistered "Individual already registered")
      ∧ applyOp stW (.registerIndividual "alice" "t9" "A2" "d2" "e2") = stW)
    ∧ (register_organization stW "school" "t9" "S2" "c2" =
        .error (.alreadyRegistered "Organization already registered")
      ∧ applyOp stW (.registerOrganization "school" "t9" "S2" "c2") = stW) :=
  ⟨(c8_duplicate_registration stW "alice" "t9" "A2" "d2" "e2" "c2").1
     indAlice (by decide),
   (c8_duplicate_registration stW "school" "t9" "S2" "d2" "e2" "c2").2
     orgSchool (by decide)⟩

/-- C10: `grant_reward` performs no caller authorization — its effect on the
state is identical for any two callers — any account can trigger it for any
registered learner, and the stored reward's amount is always `"100"`. -/
theorem c10_grant_reward_no_auth (st : AchievoState)
    (now learner_id milestone : String) :
    (∀ c1 c2 : String,
      applyOp st (.grantReward c1 now learner_id milestone) =
        applyOp st (.grantReward c2 now learner_id milestone))
    ∧ ((st.individuals learner_id).isSome = true →
        ∃ st2, grant_reward st now learner_id milestone =
            .ok (rewardId (st.reward_counter + 1), st2)
          ∧ st2.rewards (rewardId (st.reward_counter + 1)) =
              some ⟨rewardId (st.reward_counter + 1), learner_id, milestone,
                    "100", now⟩)
    ∧ (∀ rid st2,
        grant_reward st now learner_id milestone = .ok (rid, st2) →
        ∃ r, st2.rewards rid = some r ∧ r.amount = "100") := by
  refine ⟨fun c1 c2 => rfl, ?_, ?_⟩
  · intro hsome
    cases hi : st.individuals learner_id with
    | none => rw [hi] at hsome; exact absurd hsome (by simp)
    | some ind =>
      have hok : grant_reward st now learner_id milestone =
          .ok (rewardId (st.reward_counter + 1),
            { st with
              rewards := mapSet st.rewards (rewardId (st.reward_counter + 1))
                           ⟨rewardId (st.reward_counter + 1), learner_id,
                            milestone, "100", now⟩,
              reward_counter := st.reward_counter + 1 }) := by
        simp only [grant_reward, hi]
      exact ⟨_, hok, mapSet_same _ _ _⟩
  · intro rid st2 h
    obtain ⟨-, hrid, hst2⟩ := grant_reward_ok h
    subst hst2
    subst hrid
    exact ⟨_, mapSet_same _ _ _, rfl⟩

/-- Witness for C10: granting to `alice` in the concrete scenario succeeds
with `reward_1` and stores amount `"100"`. -/
theorem c10_grant_reward_no_auth_witness :
    ∃ st2, grant_reward stW "t2" "alice" "m1" =
        .ok (rewardId (stW.reward_counter + 1), st2)
      ∧ st2.rewards (rewardId (stW.reward_counter + 1)) =
          some ⟨rewardId (stW.reward_counter + 1), "alice", "m1",
                "100", "t2"⟩ :=
  (c10_grant_reward_no_auth stW "t2" "alice" "m1").2.1 (by decide)

/-- C4 counterexample: with attached value 0 and the unregistered recipient
`"bob"`, `process_payment` fails with `InsufficientFunds`, not `NotFound` —
so "fails with NotFound whenever the recipient is unregistered, regardless
of attached value" is false: the deposit check runs first. -/
theorem c4_process_payment_counterexample :
    process_payment initState "bob" 0 5 =
      .error (.insufficientFunds "Insufficient attached deposit")
    ∧ process_payment initState "bob" 0 5 ≠
        .error (.notFound "Recipient not found") := by
  have h1 : process_payment initState "bob" 0 5 =
      .error (.insufficientFunds "Insufficient attached deposit") := rfl
  refine ⟨h1, ?_⟩
  rw [h1]
  intro h
  exact ContractError.noConfusion (Except.error.inj h)

/-- C4 (amended): `process_payment` fails with `InsufficientFunds` whenever
the attached value is below `amount`, regardless of recipient validity;
fails with `NotFound` when the recipient is neither a registered Individual
nor Organization *and the attached value is at least `amount`*; otherwise
it transfers `amount` to the recipient. -/
theorem c4_process_payment (st : AchievoState) (recipient_id : String)
    (attached_deposit : Nat) (amount : Int) :
    ((attached_deposit : Int) < amount →
      process_payment st recipient_id attached_deposit amount =
        .error (.insufficientFunds "Insufficient attached deposit"))
    ∧ (amount ≤ (attached_deposit : Int) →
        st.individuals recipient_id = none →
        st.organizations recipient_id = none →
        process_payment st recipient_id attached_deposit amount =
          .error (.notFound "Recipient not found"))
    ∧ (amount ≤ (attached_deposit : Int) →
        ((st.individuals recipient_id).isSome = true ∨
         (st.organizations recipient_id).isSome = true) →
        process_payment st recipient_id attached_deposit amount =
          .ok ⟨recipient_id, amount⟩) := by
  refine ⟨?_, ?_, ?_⟩
  · intro hlt
    simp only [process_payment]
    rw [if_pos hlt]
  · intro hge hni hno
    simp only [process_payment]
    rw [if_neg (by omega), if_pos (by rw [hni, hno]; exact ⟨rfl, rfl⟩)]
  · intro hge hsome
    simp only [process_payment]
    rw [if_neg (by omega),
      if_neg (by rintro ⟨h1, h2⟩
                 rcases hsome with h | h <;>
                   simp_all [Option.isNone_iff_eq_none])]

/-- Witness for the amended C4: low deposit beats a valid recipient check,
an unknown recipient with enough deposit is `NotFound`, and a funded payment
to `alice` yields the transfer. -/
theorem c4_process_payment_witness :
    process_payment stW "alice" 0 5 =
      .error (.insufficientFunds "Insufficient attached deposit")
    ∧ process_payment stW "bob" 5 5 = .error (.notFound "Recipient not found")
    ∧ process_payment stW "alice" 5 3 = .ok ⟨"alice", 3⟩ :=
  ⟨(c4_process_payment stW "alice" 0 5).1 (by decide),
   (c4_process_payment stW "bob" 5 5).2.1 (by decide) (by decide) (by decide),
   (c4_process_payment stW "alice" 5 3).2.2 (by decide) (Or.inl (by decide))⟩

end Achievo